import Mathlib

/-!
Shallow embedding of the Taskly local persistence + outbox sync layer.

The embedding follows the TypeScript source:
* `BaseRepository` (generic CRUD with outbox enqueueing) from
  `src/mobile/models/base` (shipped appended to `src/mobile/models/subtask.ts`);
* `TaskRepository` from the task model file (`src/unnamed/part_003`);
* `CategoryRepository` from `src/mobile/models/category.ts`;
* `SubtaskRepository` from `src/mobile/models/subtask.ts`;
* `TimeSessionRepository` from `src/mobile/models/time-session.ts`;
* `SyncService` from `src/taskly/services/sync.ts`.

The SQLite store is modelled as in-memory lists of rows, one list per table,
with inserts appending at the end and `SELECT ... WHERE id = ? LIMIT 1`
returning the first match in row order.  Timestamps and ids are opaque
strings supplied by the caller of each operation (the source obtains them
from `new Date().toISOString()` and `generateId()`); SQLite's BINARY
string collation is modelled by byte-wise comparison of the strings.
`JSON.stringify` snapshots stored in `sync_metadata.data` are modelled by an
opaque per-table `serialize` function; no code in this layer ever reads them
back.  JavaScript `Date.getTime` parsing of an ISO string to milliseconds is
abstracted as an explicit `parse` parameter where the source uses it
(`endSession`).
-/

namespace Taskly

/-- SyncStatus of an entity row (`'synced' | 'pending' | 'conflict'`). -/
inductive SyncStatus where
  | synced
  | pending
  | conflict
  deriving DecidableEq, Repr

/-- Outbox operation (`'create' | 'update' | 'delete'`). -/
inductive SyncOp where
  | create
  | update
  | delete
  deriving DecidableEq, Repr

/-- Row of the `sync_metadata` table (schema.ts `syncMetadata`). -/
structure SyncRecord where
  id : String
  tableName : String
  recordId : String
  operation : SyncOp
  data : Option String
  timestamp : String
  retryCount : Nat
  error : Option String
  deriving DecidableEq, Repr

/-- Row of the `tasks` table (schema.ts `tasks`). -/
structure Task where
  id : String
  title : String
  description : Option String
  completed : Bool
  priority : String
  dueDate : Option String
  createdAt : String
  updatedAt : String
  categoryId : Option String
  tags : Option String
  estimatedTime : Option Int
  actualTime : Option Int
  syncStatus : SyncStatus
  lastSyncAt : Option String
  deriving DecidableEq, Repr

/-- Row of the `categories` table (schema.ts `categories`). -/
structure Category where
  id : String
  name : String
  color : String
  icon : Option String
  createdAt : String
  updatedAt : String
  syncStatus : SyncStatus
  lastSyncAt : Option String
  deriving DecidableEq, Repr

/-- Row of the `subtasks` table (schema.ts `subtasks`). -/
structure Subtask where
  id : String
  taskId : String
  title : String
  completed : Bool
  order : Int
  createdAt : String
  updatedAt : String
  syncStatus : SyncStatus
  lastSyncAt : Option String
  deriving DecidableEq, Repr

/-- Row of the `time_sessions` table (the mobile schema used by
`time-session.ts`, which selects an `updatedAt` column in addition to the
columns of the taskly schema). -/
structure TimeSession where
  id : String
  taskId : String
  startTime : String
  endTime : Option String
  duration : Option Int
  notes : Option String
  createdAt : String
  updatedAt : String
  syncStatus : SyncStatus
  lastSyncAt : Option String
  deriving DecidableEq, Repr

/-- The whole embedded SQLite database: five tables, each a list of rows in
physical row order (inserts append). -/
structure DB where
  tasks : List Task
  categories : List Category
  subtasks : List Subtask
  timeSessions : List TimeSession
  syncMetadata : List SyncRecord
  deriving DecidableEq, Repr

/-- Byte-wise (SQLite BINARY collation) strict comparison of strings,
on their character lists. -/
def strLtL : List Char → List Char → Bool
  | [], [] => false
  | [], _ :: _ => true
  | _ :: _, [] => false
  | c :: cs, d :: ds =>
    if c.toNat < d.toNat then true
    else if d.toNat < c.toNat then false
    else strLtL cs ds

/-- Byte-wise strict order on strings, as SQLite compares TEXT values. -/
def strLt (a b : String) : Bool := strLtL a.toList b.toList

/-- Byte-wise non-strict order on strings. -/
def strLe (a b : String) : Bool := !strLt b a

/-- Insert `x` into `l` before the first element `y` with `le x y`. -/
def insertSorted (le : α → α → Bool) (x : α) : List α → List α
  | [] => [x]
  | y :: ys => if le x y then x :: y :: ys else y :: insertSorted le x ys

/-- Insertion sort; models a SQL `ORDER BY` with comparison `le`. -/
def sortBy (le : α → α → Bool) : List α → List α
  | [] => []
  | x :: xs => insertSorted le x (sortBy le xs)

/-- JavaScript `a || b` on nullable strings: the empty string is falsy. -/
def jsOr (a b : Option String) : Option String :=
  match a with
  | some s => if s = "" then b else some s
  | none => b

/-- Table descriptor: how the generic `BaseRepository` code views one
entity table of the database (its drizzle table object plus the
`tableName` string and the field updates the generic code performs). -/
structure Table (α : Type) where
  name : String
  rows : DB → List α
  setRows : DB → List α → DB
  getId : α → String
  stampUpdate : α → String → α
  stampSyncStatus : α → SyncStatus → String → String → α
  serialize : α → String

/-- Opaque stand-in for `JSON.stringify` of a task row. -/
def serializeTask (t : Task) : String :=
  t.id ++ "|" ++ t.title ++ "|" ++ t.createdAt

/-- Opaque stand-in for `JSON.stringify` of a category row. -/
def serializeCategory (c : Category) : String :=
  c.id ++ "|" ++ c.name ++ "|" ++ c.createdAt

/-- Opaque stand-in for `JSON.stringify` of a subtask row. -/
def serializeSubtask (s : Subtask) : String :=
  s.id ++ "|" ++ s.title ++ "|" ++ s.createdAt

/-- Opaque stand-in for `JSON.stringify` of a time-session row. -/
def serializeTimeSession (s : TimeSession) : String :=
  s.id ++ "|" ++ s.startTime ++ "|" ++ s.createdAt

/-- The `tasks` table as seen by `TaskRepository extends BaseRepository`. -/
def taskTable : Table Task where
  name := "tasks"
  rows := DB.tasks
  setRows := fun db l => { db with tasks := l }
  getId := Task.id
  stampUpdate := fun t ts => { t with updatedAt := ts, syncStatus := .pending }
  stampSyncStatus := fun t st ls ts =>
    { t with syncStatus := st, lastSyncAt := some ls, updatedAt := ts }
  serialize := serializeTask

/-- The `categories` table as seen by `CategoryRepository`. -/
def categoryTable : Table Category where
  name := "categories"
  rows := DB.categories
  setRows := fun db l => { db with categories := l }
  getId := Category.id
  stampUpdate := fun c ts => { c with updatedAt := ts, syncStatus := .pending }
  stampSyncStatus := fun c st ls ts =>
    { c with syncStatus := st, lastSyncAt := some ls, updatedAt := ts }
  serialize := serializeCategory

/-- The `subtasks` table as seen by `SubtaskRepository`. -/
def subtaskTable : Table Subtask where
  name := "subtasks"
  rows := DB.subtasks
  setRows := fun db l => { db with subtasks := l }
  getId := Subtask.id
  stampUpdate := fun s ts => { s with updatedAt := ts, syncStatus := .pending }
  stampSyncStatus := fun s st ls ts =>
    { s with syncStatus := st, lastSyncAt := some ls, updatedAt := ts }
  serialize := serializeSubtask

/-- The `time_sessions` table as seen by `TimeSessionRepository`. -/
def timeSessionTable : Table TimeSession where
  name := "time_sessions"
  rows := DB.timeSessions
  setRows := fun db l => { db with timeSessions := l }
  getId := TimeSession.id
  stampUpdate := fun s ts => { s with updatedAt := ts, syncStatus := .pending }
  stampSyncStatus := fun s st ls ts =>
    { s with syncStatus := st, lastSyncAt := some ls, updatedAt := ts }
  serialize := serializeTimeSession

/-- BaseRepository.getById: `SELECT * FROM t WHERE id = ? LIMIT 1`,
null when absent. -/
def getById (t : Table α) (db : DB) (id : String) : Option α :=
  (t.rows db).find? (fun r => t.getId r == id)

/-- BaseRepository.markForSync: insert a fresh row into `sync_metadata`
with `retryCount = 0` and no error.  `syncId` models the `generateId()`
call, `now` the `getCurrentTimestamp()` call. -/
def markForSync (t : Table α) (db : DB) (syncId recordId : String)
    (op : SyncOp) (data : Option String) (now : String) : DB :=
  { db with syncMetadata := db.syncMetadata ++
      [{ id := syncId, tableName := t.name, recordId := recordId,
         operation := op, data := data, timestamp := now,
         retryCount := 0, error := none }] }

/-- BaseRepository.create: insert the already-stamped `newRecord`
(the source builds it as `{...data, id, createdAt: ts, updatedAt: ts,
syncStatus: 'pending'}`; the entity-specific `mk` builders below do the
same), enqueue a `create` SyncRecord carrying its snapshot, then read the
row back by id. -/
def repoCreate (t : Table α) (db : DB) (newRecord : α)
    (syncId now : String) : DB × Option α :=
  let db1 := t.setRows db (t.rows db ++ [newRecord])
  let db2 := markForSync t db1 syncId (t.getId newRecord) .create
    (some (t.serialize newRecord)) now
  (db2, getById t db2 (t.getId newRecord))

/-- BaseRepository.update: apply the changed fields (`patch`) together with
`updatedAt = now` and `syncStatus = 'pending'` to every row matching the
id, read the row back, and if it exists enqueue an `update` SyncRecord
with the fetched row as snapshot.  Returns null when the id is absent. -/
def repoUpdate (t : Table α) (db : DB) (id : String) (patch : α → α)
    (syncId now : String) : DB × Option α :=
  let db1 := t.setRows db ((t.rows db).map
    (fun r => if t.getId r == id then t.stampUpdate (patch r) now else r))
  match getById t db1 id with
  | some updated =>
      (markForSync t db1 syncId id .update (some (t.serialize updated)) now,
       some updated)
  | none => (db1, none)

/-- BaseRepository.delete: look the row up first; if absent return false,
otherwise remove it and enqueue a `delete` SyncRecord with the removed
row as snapshot. -/
def repoDelete (t : Table α) (db : DB) (id : String)
    (syncId now : String) : DB × Bool :=
  match getById t db id with
  | none => (db, false)
  | some record =>
    let db1 := t.setRows db ((t.rows db).filter (fun r => t.getId r != id))
    (markForSync t db1 syncId id .delete (some (t.serialize record)) now, true)

/-- BaseRepository.updateSyncStatus: set `syncStatus`, `lastSyncAt`
(defaulting to now) and `updatedAt` directly, without enqueueing a
SyncRecord. -/
def updateSyncStatus (t : Table α) (db : DB) (recordId : String)
    (status : SyncStatus) (lastSyncAt : Option String) (now : String) : DB :=
  t.setRows db ((t.rows db).map
    (fun r => if t.getId r == recordId
      then t.stampSyncStatus r status (lastSyncAt.getD now) now else r))

/-- JS `isoString.split('T')[0]`: the characters before the first `T`. -/
def isoDatePart (s : String) : String :=
  String.mk (s.toList.takeWhile (fun c => c ≠ 'T'))

/-- List-level prefix test (first argument is the candidate prefix). -/
def strPrefixL : List Char → List Char → Bool
  | [], _ => true
  | _ :: _, [] => false
  | c :: cs, d :: ds => c == d && strPrefixL cs ds

/-- SQL `s LIKE 'p%'`: `p` is a prefix of `s`. -/
def strStartsWith (s p : String) : Bool := strPrefixL p.toList s.toList

/-- TaskRepository / BaseRepository.getAll over tasks:
`ORDER BY createdAt DESC`. -/
def getAllTasks (db : DB) : List Task :=
  sortBy (fun a b => strLe b.createdAt a.createdAt) db.tasks

/-- TaskRepository.getOverdue: the source computes `now` but never uses it;
the WHERE clause is only `completed = false AND dueDate IS NOT NULL`,
ordered by dueDate ascending.  The unused `now` parameter is kept to
mirror the source. -/
def getOverdue (db : DB) (now : String) : List Task :=
  let _ := now
  sortBy (fun a b => strLe (a.dueDate.getD "") (b.dueDate.getD ""))
    (db.tasks.filter (fun t => t.completed == false && t.dueDate.isSome))

/-- TaskRepository.getDueToday: `completed = false AND dueDate LIKE
'YYYY-MM-DD%'` for today's date part, ordered by dueDate ascending. -/
def getDueToday (db : DB) (now : String) : List Task :=
  let today := isoDatePart now
  sortBy (fun a b => strLe (a.dueDate.getD "") (b.dueDate.getD ""))
    (db.tasks.filter (fun t =>
      t.completed == false &&
        (match t.dueDate with
         | some d => strStartsWith d today
         | none => false)))

/-- Per-priority task counts, as TaskRepository.getStatistics builds them
(every priority key present, missing ones zero). -/
structure PriorityCounts where
  low : Nat
  medium : Nat
  high : Nat
  deriving DecidableEq, Repr

/-- Result record of TaskRepository.getStatistics. -/
structure TaskStatistics where
  total : Nat
  completed : Nat
  pending : Nat
  overdue : Nat
  dueToday : Nat
  byPriority : PriorityCounts
  deriving DecidableEq, Repr

/-- TaskRepository.getStatistics: aggregates `getAll`, `getOverdue` and
`getDueToday`. -/
def getStatistics (db : DB) (now : String) : TaskStatistics :=
  let allTasks := getAllTasks db
  let overdueTasks := getOverdue db now
  let dueTodayTasks := getDueToday db now
  let completed := (allTasks.filter (fun t => t.completed)).length
  { total := allTasks.length
    completed := completed
    pending := allTasks.length - completed
    overdue := overdueTasks.length
    dueToday := dueTodayTasks.length
    byPriority :=
      { low := (allTasks.filter (fun t => t.priority == "low")).length
        medium := (allTasks.filter (fun t => t.priority == "medium")).length
        high := (allTasks.filter (fun t => t.priority == "high")).length } }

/-- TaskRepository.toggleCompletion: fetch the task, flip `completed`
(resetting `actualTime` to null when un-completing), and if the updated
task is completed, mark every subtask of the task completed with a direct
`db.update` (no outbox entries for the cascaded subtasks). -/
def toggleCompletion (db : DB) (id : String) (syncId now : String) :
    DB × Option Task :=
  match getById taskTable db id with
  | none => (db, none)
  | some task =>
    let (db1, updatedTask) := repoUpdate taskTable db id
      (fun r => { r with
        completed := !task.completed,
        actualTime := if task.completed then none else task.actualTime })
      syncId now
    match updatedTask with
    | some ut =>
      if ut.completed then
        ({ db1 with subtasks := db1.subtasks.map (fun s =>
            if s.taskId == id
            then { s with completed := true, updatedAt := now,
                          syncStatus := .pending }
            else s) },
         some ut)
      else (db1, some ut)
    | none => (db1, none)

/-- CategoryRepository.nameExists: `SELECT id FROM categories WHERE
name = ?` — SQLite BINARY collation, so the comparison is exact
(case-sensitive).  With `excludeId` it checks for any other row of that
name; without, for any row at all. -/
def nameExists (db : DB) (name : String) (excludeId : Option String) : Bool :=
  let results := db.categories.filter (fun c => c.name == name)
  match excludeId with
  | some ex => results.any (fun c => c.id != ex)
  | none => !results.isEmpty

/-- Insert data for CategoryRepository.createCategory
(the `Omit<NewCategory, id | createdAt | updatedAt | syncStatus>` type). -/
structure NewCategoryData where
  name : String
  color : String
  icon : Option String
  deriving DecidableEq, Repr

/-- The category row BaseRepository.create builds from its input. -/
def mkCategory (data : NewCategoryData) (id ts : String) : Category :=
  { id := id, name := data.name, color := data.color, icon := data.icon,
    createdAt := ts, updatedAt := ts, syncStatus := .pending,
    lastSyncAt := none }

/-- CategoryRepository.createCategory: reject (throw) when `nameExists`
already holds for the requested name, otherwise create the row. -/
def createCategory (db : DB) (data : NewCategoryData)
    (newId syncId now : String) : DB × Except String Category :=
  if nameExists db data.name none then
    (db, .error ("Category with name \"" ++ data.name ++ "\" already exists"))
  else
    match repoCreate categoryTable db (mkCategory data newId now) syncId now with
    | (db1, some c) => (db1, .ok c)
    | (db1, none) => (db1, .error "Failed to retrieve created categories record")

/-- SQL `MAX(...)` over a list of integers: NULL on the empty set. -/
def listMax : List Int → Option Int
  | [] => none
  | x :: xs =>
    match listMax xs with
    | none => some x
    | some m => some (max x m)

/-- The `(maxOrderResult[0]?.maxOrder || 0)` expression of
SubtaskRepository.createSubtask: `MAX("order")` over the subtasks of one
task, with SQL NULL (and JS-falsy 0) collapsing to 0. -/
def maxOrderFor (db : DB) (taskId : String) : Int :=
  (listMax ((db.subtasks.filter (fun s => s.taskId == taskId)).map
    (fun s => s.order))).getD 0

/-- Insert data for SubtaskRepository.createSubtask (its `Omit<...>` type,
which excludes `order`). -/
structure NewSubtaskData where
  taskId : String
  title : String
  completed : Bool
  deriving DecidableEq, Repr

/-- The subtask row BaseRepository.create builds from createSubtask's
input plus the computed order. -/
def mkSubtask (data : NewSubtaskData) (ord : Int) (id ts : String) : Subtask :=
  { id := id, taskId := data.taskId, title := data.title,
    completed := data.completed, order := ord,
    createdAt := ts, updatedAt := ts, syncStatus := .pending,
    lastSyncAt := none }

/-- SubtaskRepository.createSubtask: compute `nextOrder` as the task's
max existing order plus one, then create. -/
def createSubtask (db : DB) (data : NewSubtaskData)
    (newId syncId now : String) : DB × Option Subtask :=
  let nextOrder := maxOrderFor db data.taskId + 1
  repoCreate subtaskTable db (mkSubtask data nextOrder newId now) syncId now

/-- One element of a sequence of createSubtask calls: the caller-supplied
title/completed input and the fresh ids and timestamp of that call. -/
structure SubtaskIn where
  title : String
  completed : Bool
  newId : String
  syncId : String
  now : String
  deriving DecidableEq, Repr

/-- Driver folding createSubtask over a sequence of inputs for one task,
collecting the created rows in call order. -/
def createSubtasksSeq (db : DB) (taskId : String) :
    List SubtaskIn → DB × List (Option Subtask)
  | [] => (db, [])
  | i :: is =>
    let (db1, r) := createSubtask db ⟨taskId, i.title, i.completed⟩
      i.newId i.syncId i.now
    let (db2, rs) := createSubtasksSeq db1 taskId is
    (db2, r :: rs)

/-- SubtaskRepository.moveUp: fetch the subtask; refuse when absent or at
order ≤ 1; find the sibling one order below (same `taskId`, `order - 1`,
`LIMIT 1`); swap the two rows' orders with two `update` calls. -/
def moveUp (db : DB) (id : String) (syncId1 syncId2 now : String) :
    DB × Bool :=
  match getById subtaskTable db id with
  | none => (db, false)
  | some subtask =>
    if subtask.order ≤ 1 then (db, false)
    else
      match db.subtasks.find? (fun s =>
          s.taskId == subtask.taskId && s.order == subtask.order - 1) with
      | none => (db, false)
      | some previousSubtask =>
        let (db1, _) := repoUpdate subtaskTable db subtask.id
          (fun r => { r with order := previousSubtask.order }) syncId1 now
        let (db2, _) := repoUpdate subtaskTable db1 previousSubtask.id
          (fun r => { r with order := subtask.order }) syncId2 now
        (db2, true)

/-- TimeSessionRepository.getActiveSession: first session of the task with
`endTime IS NULL`. -/
def getActiveSession (db : DB) (taskId : String) : Option TimeSession :=
  db.timeSessions.find? (fun s => s.taskId == taskId && s.endTime.isNone)

/-- TimeSessionRepository.startSession: throw when an active session
exists for the task (the catch rethrows, so the caller sees the error and
nothing is written), otherwise create a session starting now.  `notes`
goes through JS `notes || null`. -/
def startSession (db : DB) (taskId : String) (notes : Option String)
    (newId syncId now : String) : DB × Except String TimeSession :=
  match getActiveSession db taskId with
  | some _ => (db, .error "There is already an active session for this task")
  | none =>
    let newRecord : TimeSession :=
      { id := newId, taskId := taskId, startTime := now, endTime := none,
        duration := none, notes := jsOr notes none, createdAt := now,
        updatedAt := now, syncStatus := .pending, lastSyncAt := none }
    match repoCreate timeSessionTable db newRecord syncId now with
    | (db1, some created) => (db1, .ok created)
    | (db1, none) => (db1, .error "Failed to retrieve created time_sessions record")

/-- TimeSessionRepository.endSession.  Outcomes as the caller observes
them: a missing id returns null; an already-ended session hits the
internal `throw new Error('Session is already ended')`, which the
function's own catch swallows, returning null — so the caller never sees
an exception (`Except.error` is never produced).  An active session gets
`endTime := now` and `duration := floor((parse now − parse startTime) /
1000)` seconds, where `parse` abstracts JS `new Date(s).getTime()`. -/
def endSession (db : DB) (id : String) (notes : Option String)
    (parse : String → Int) (syncId now : String) :
    DB × Except String (Option TimeSession) :=
  match getById timeSessionTable db id with
  | none => (db, .ok none)
  | some session =>
    match session.endTime with
    | some _ => (db, .ok none)
    | none =>
      let duration := Int.fdiv (parse now - parse session.startTime) 1000
      let (db1, updated) := repoUpdate timeSessionTable db id
        (fun r => { r with endTime := some now, duration := some duration,
                           notes := jsOr notes session.notes }) syncId now
      (db1, .ok updated)

/-- SyncService.performSync's result object. -/
structure SyncResult where
  success : Bool
  syncedCount : Nat
  failedCount : Nat
  errors : List String
  deriving DecidableEq, Repr

/-- SyncService state: the database plus the `syncInProgress` guard. -/
structure SyncState where
  db : DB
  syncInProgress : Bool
  deriving DecidableEq, Repr

/-- SyncService.getPendingSyncItems: every row of `sync_metadata`
(no WHERE clause), `ORDER BY timestamp DESC`. -/
def getPendingSyncItems (db : DB) : List SyncRecord :=
  sortBy (fun a b => strLe b.timestamp a.timestamp) db.syncMetadata

/-- SyncService.processSyncItem: the stand-in "remote push" — set the
referenced entity's syncStatus to synced via the matching repository's
updateSyncStatus; throw on an unknown tableName. -/
def processSyncItem (db : DB) (item : SyncRecord) (now : String) :
    Except String DB :=
  if item.tableName == "tasks" then
    .ok (updateSyncStatus taskTable db item.recordId .synced none now)
  else if item.tableName == "categories" then
    .ok (updateSyncStatus categoryTable db item.recordId .synced none now)
  else if item.tableName == "subtasks" then
    .ok (updateSyncStatus subtaskTable db item.recordId .synced none now)
  else if item.tableName == "time_sessions" then
    .ok (updateSyncStatus timeSessionTable db item.recordId .synced none now)
  else
    .error ("Unknown table: " ++ item.tableName)

/-- Accumulated state of performSync's per-item loop. -/
structure SyncLoopOut where
  db : DB
  syncedCount : Nat
  failedCount : Nat
  errors : List String
  deriving DecidableEq, Repr

/-- The `for` loop of performSync: per item, on success delete its
sync_metadata row and count it synced; on failure bump the row's
retryCount (from the fetched snapshot), record the error message, and
count it failed. -/
def syncLoop (now : String) :
    List SyncRecord → DB → Nat → Nat → List String → SyncLoopOut
  | [], db, sc, fc, errs => ⟨db, sc, fc, errs⟩
  | item :: rest, db, sc, fc, errs =>
    match processSyncItem db item now with
    | .ok db1 =>
      let db2 := { db1 with
        syncMetadata := db1.syncMetadata.filter (fun m => m.id != item.id) }
      syncLoop now rest db2 (sc + 1) fc errs
    | .error msg =>
      let db2 := { db with
        syncMetadata := db.syncMetadata.map (fun m =>
          if m.id == item.id
          then { m with retryCount := item.retryCount + 1, error := some msg }
          else m) }
      syncLoop now rest db2 sc (fc + 1)
        (errs ++ ["Failed to sync " ++ item.tableName ++ " " ++
          item.recordId ++ ": " ++ msg])

/-- SyncService.performSync.  The `syncInProgress` guard is checked
synchronously first: a second call while one is unresolved throws
immediately, touching nothing.  Otherwise the pending items are read and
drained; the `finally` clears the guard, so the state returned by a
completed run has `syncInProgress = false`. -/
def performSync (s : SyncState) (now : String) :
    SyncState × Except String SyncResult :=
  if s.syncInProgress then (s, .error "Sync is already in progress")
  else
    let pendingItems := getPendingSyncItems s.db
    if pendingItems.isEmpty then
      ({ db := s.db, syncInProgress := false },
       .ok { success := true, syncedCount := 0, failedCount := 0, errors := [] })
    else
      let out := syncLoop now pendingItems s.db 0 0 []
      ({ db := out.db, syncInProgress := false },
       .ok { success := out.failedCount == 0, syncedCount := out.syncedCount,
             failedCount := out.failedCount, errors := out.errors })

/-- Number of `sync_metadata` rows matching a (tableName, recordId,
operation) triple. -/
def matchCount (db : DB) (tn rid : String) (op : SyncOp) : Nat :=
  (db.syncMetadata.filter (fun m =>
    m.tableName == tn && m.recordId == rid && m.operation == op)).length

/-- A repository that stores rows in one entity table only: writing its
rows never touches `sync_metadata`.  Holds by definition for the four
table descriptors. -/
def PreservesMeta (t : Table α) : Prop :=
  ∀ (db : DB) (l : List α), (t.setRows db l).syncMetadata = db.syncMetadata

/-- Consecutive integers m+1, m+2, ..., m+n: the order values a run of n
sequential createSubtask calls assigns starting from max order m. -/
def ascOrders (m : Int) : Nat → List Int
  | 0 => []
  | n + 1 => (m + 1) :: ascOrders (m + 1) n

/-- An empty database. -/
def emptyDB : DB :=
  { tasks := [], categories := [], subtasks := [], timeSessions := [],
    syncMetadata := [] }

/-- Concrete subtask fixture. -/
def c1Sub : Subtask :=
  { id := "s1", taskId := "t1", title := "draft", completed := false,
    order := 1, createdAt := "2026-01-01T00:00:00.000Z",
    updatedAt := "2026-01-01T00:00:00.000Z", syncStatus := .pending,
    lastSyncAt := none }

/-- Database with one subtask and an empty outbox. -/
def c1DB : DB := { emptyDB with subtasks := [c1Sub] }

/-- A second subtask row, used as a freshly-created record. -/
def c1NewSub : Subtask :=
  { id := "s9", taskId := "t1", title := "new", completed := false,
    order := 2, createdAt := "2026-01-05T00:00:00.000Z",
    updatedAt := "2026-01-05T00:00:00.000Z", syncStatus := .pending,
    lastSyncAt := none }

/-- Outbox row for a pending task update. -/
def c1SyncRec : SyncRecord :=
  { id := "m1", tableName := "tasks", recordId := "t1", operation := .update,
    data := none, timestamp := "2026-01-01T00:00:00.000Z", retryCount := 0,
    error := none }

/-- Database whose outbox holds one pending task record. -/
def c1SyncDB : DB := { emptyDB with syncMetadata := [c1SyncRec] }

/-- Older outbox row. -/
def c2Rec1 : SyncRecord :=
  { id := "m1", tableName := "tasks", recordId := "t1", operation := .create,
    data := none, timestamp := "2026-01-01T00:00:00.000Z", retryCount := 0,
    error := none }

/-- Newer outbox row. -/
def c2Rec2 : SyncRecord :=
  { id := "m2", tableName := "tasks", recordId := "t1", operation := .update,
    data := none, timestamp := "2026-01-02T00:00:00.000Z", retryCount := 0,
    error := none }

/-- Database whose outbox holds the two rows above, older one first in
row order. -/
def c2DB : DB := { emptyDB with syncMetadata := [c2Rec1, c2Rec2] }

/-- Sync-service state with a sync already in flight over a non-empty
outbox. -/
def c3State : SyncState :=
  { db := { emptyDB with syncMetadata := [c1SyncRec] }, syncInProgress := true }

/-- A not-completed task whose due date lies in the future. -/
def c4Task : Task :=
  { id := "t1", title := "future", description := none, completed := false,
    priority := "low", dueDate := some "2999-01-01T00:00:00.000Z",
    createdAt := "2026-10-01T00:00:00.000Z",
    updatedAt := "2026-10-01T00:00:00.000Z", categoryId := none,
    tags := none, estimatedTime := none, actualTime := none,
    syncStatus := .pending, lastSyncAt := none }

/-- Database holding only the future-dated task. -/
def c4DB : DB := { emptyDB with tasks := [c4Task] }

/-- The "now" instant for the overdue check. -/
def c4Now : String := "2026-10-11T00:00:00.000Z"

/-- Existing category named "Work". -/
def c5Work : Category :=
  { id := "c1", name := "Work", color := "#3B82F6", icon := none,
    createdAt := "2026-01-01T00:00:00.000Z",
    updatedAt := "2026-01-01T00:00:00.000Z", syncStatus := .pending,
    lastSyncAt := none }

/-- Database holding only the "Work" category. -/
def c5DB : DB := { emptyDB with categories := [c5Work] }

/-- An already-ended time session. -/
def c6Ended : TimeSession :=
  { id := "e1", taskId := "t1", startTime := "2026-01-01T00:00:00.000Z",
    endTime := some "2026-01-01T01:00:00.000Z", duration := some 3600,
    notes := none, createdAt := "2026-01-01T00:00:00.000Z",
    updatedAt := "2026-01-01T01:00:00.000Z", syncStatus := .pending,
    lastSyncAt := none }

/-- An active (endTime null) time session. -/
def c6Active : TimeSession :=
  { id := "a1", taskId := "t2", startTime := "2026-01-02T00:00:00.000Z",
    endTime := none, duration := none, notes := none,
    createdAt := "2026-01-02T00:00:00.000Z",
    updatedAt := "2026-01-02T00:00:00.000Z", syncStatus := .pending,
    lastSyncAt := none }

/-- Database with one ended and one active session. -/
def c6DB : DB := { emptyDB with timeSessions := [c6Ended, c6Active] }

/-- An incomplete task fixture. -/
def c7Task : Task :=
  { id := "t1", title := "parent", description := none, completed := false,
    priority := "medium", dueDate := none,
    createdAt := "2026-01-01T00:00:00.000Z",
    updatedAt := "2026-01-01T00:00:00.000Z", categoryId := none,
    tags := none, estimatedTime := none, actualTime := some 30,
    syncStatus := .pending, lastSyncAt := none }

/-- An incomplete subtask of the task above. -/
def c7Sub : Subtask :=
  { id := "s1", taskId := "t1", title := "child", completed := false,
    order := 1, createdAt := "2026-01-01T00:00:00.000Z",
    updatedAt := "2026-01-01T00:00:00.000Z", syncStatus := .pending,
    lastSyncAt := none }

/-- Database with the incomplete task and its subtask. -/
def c7DB : DB := { emptyDB with tasks := [c7Task], subtasks := [c7Sub] }

/-- Inputs for two sequential createSubtask calls under task "t1". -/
def c8Inputs : List SubtaskIn :=
  [{ title := "first", completed := false, newId := "s1", syncId := "m1",
     now := "2026-01-01T00:00:00.000Z" },
   { title := "second", completed := false, newId := "s2", syncId := "m2",
     now := "2026-01-02T00:00:00.000Z" }]

/-- First subtask (order 1) of a two-subtask task. -/
def c8SubA : Subtask :=
  { id := "s1", taskId := "t1", title := "first", completed := false,
    order := 1, createdAt := "2026-01-01T00:00:00.000Z",
    updatedAt := "2026-01-01T00:00:00.000Z", syncStatus := .pending,
    lastSyncAt := none }

/-- Second subtask (order 2) of a two-subtask task. -/
def c8SubB : Subtask :=
  { id := "s2", taskId := "t1", title := "second", completed := false,
    order := 2, createdAt := "2026-01-02T00:00:00.000Z",
    updatedAt := "2026-01-02T00:00:00.000Z", syncStatus := .pending,
    lastSyncAt := none }

/-- Database with the two ordered subtasks. -/
def c8TwoDB : DB := { emptyDB with subtasks := [c8SubA, c8SubB] }

/-- Active session for task "t1". -/
def c9Active : TimeSession :=
  { id := "sess1", taskId := "t1", startTime := "2026-01-01T00:00:00.000Z",
    endTime := none, duration := none, notes := none,
    createdAt := "2026-01-01T00:00:00.000Z",
    updatedAt := "2026-01-01T00:00:00.000Z", syncStatus := .pending,
    lastSyncAt := none }

/-- Database with one active session for task "t1". -/
def c9DB : DB := { emptyDB with timeSessions := [c9Active] }

/-- A completed task with a recorded actualTime. -/
def c10Task : Task :=
  { id := "t1", title := "done", description := none, completed := true,
    priority := "high", dueDate := none,
    createdAt := "2026-01-01T00:00:00.000Z",
    updatedAt := "2026-01-01T00:00:00.000Z", categoryId := none,
    tags := none, estimatedTime := none, actualTime := some 42,
    syncStatus := .pending, lastSyncAt := none }

/-- Database with the completed task. -/
def c10DB : DB := { emptyDB with tasks := [c10Task] }

instance [DecidableEq ε] [DecidableEq α] : DecidableEq (Except ε α) := fun a b =>
  match a, b with
  | .ok x, .ok y => if h : x = y then .isTrue (by rw [h]) else .isFalse (by simp [h])
  | .error x, .error y =>
      if h : x = y then .isTrue (by rw [h]) else .isFalse (by simp [h])
  | .ok _, .error _ => .isFalse (by simp)
  | .error _, .ok _ => .isFalse (by simp)

/-- Byte-wise string comparison is asymmetric. -/
theorem strLtL_asymm : ∀ (a b : List Char),
    strLtL a b = true → strLtL b a = false := by
  intro a
  induction a with
  | nil =>
    intro b h
    cases b with
    | nil => simp [strLtL] at h
    | cons d ds => simp [strLtL]
  | cons c cs ih =>
    intro b h
    cases b with
    | nil => simp [strLtL] at h
    | cons d ds =>
      simp only [strLtL] at h ⊢
      rcases Nat.lt_trichotomy c.toNat d.toNat with h1 | h1 | h1
      · rw [if_neg (by omega), if_pos h1]
      · rw [if_neg (by omega), if_neg (by omega)] at h
        rw [if_neg (by omega), if_neg (by omega)]
        exact ih ds h
      · rw [if_neg (by omega), if_pos h1] at h
        simp at h

/-- Byte-wise string comparison: the negation of `strLtL` is transitive. -/
theorem strLtL_false_trans : ∀ (a b c : List Char),
    strLtL b a = false → strLtL c b = false → strLtL c a = false := by
  intro a
  induction a with
  | nil =>
    intro b c h1 h2
    cases c <;> cases b <;> simp_all [strLtL]
  | cons x xs ih =>
    intro b c h1 h2
    cases b with
    | nil => simp [strLtL] at h1
    | cons y ys =>
      cases c with
      | nil => simp [strLtL] at h2
      | cons z zs =>
        simp only [strLtL] at h1 h2 ⊢
        have hxy : ¬ y.toNat < x.toNat := by
          intro hc
          rw [if_pos hc] at h1
          simp at h1
        have hyz : ¬ z.toNat < y.toNat := by
          intro hc
          rw [if_pos hc] at h2
          simp at h2
        rw [if_neg (by omega)]
        by_cases hxz : x.toNat < z.toNat
        · rw [if_pos hxz]
        · rw [if_neg hxz]
          have hxy2 : ¬ x.toNat < y.toNat := by omega
          have hyz2 : ¬ y.toNat < z.toNat := by omega
          rw [if_neg hxy, if_neg hxy2] at h1
          rw [if_neg hyz, if_neg hyz2] at h2
          exact ih ys zs h1 h2

/-- Byte-wise `≤` on strings is total. -/
theorem strLe_total (a b : String) : strLe a b = true ∨ strLe b a = true := by
  unfold strLe strLt
  by_cases h : strLtL b.toList a.toList = true
  · right
    rw [strLtL_asymm _ _ h]
    rfl
  · left
    rw [Bool.not_eq_true] at h
    rw [h]
    rfl

/-- Byte-wise `≤` on strings is transitive. -/
theorem strLe_trans (a b c : String) :
    strLe a b = true → strLe b c = true → strLe a c = true := by
  unfold strLe strLt
  intro h1 h2
  have h1b : strLtL b.toList a.toList = false := by
    cases hx : strLtL b.toList a.toList
    · rfl
    · rw [hx] at h1
      simp at h1
  have h2b : strLtL c.toList b.toList = false := by
    cases hx : strLtL c.toList b.toList
    · rfl
    · rw [hx] at h2
      simp at h2
  rw [strLtL_false_trans a.toList b.toList c.toList h1b h2b]
  rfl

/-- Inserting into a list permutes consing. -/
theorem insertSorted_perm (le : α → α → Bool) (x : α) (l : List α) :
    (insertSorted le x l).Perm (x :: l) := by
  induction l with
  | nil => exact List.Perm.refl _
  | cons y ys ih =>
    unfold insertSorted
    by_cases h : le x y = true
    · rw [if_pos h]
    · rw [if_neg h]
      exact (List.Perm.cons y ih).trans (List.Perm.swap x y ys)

/-- `sortBy` returns a permutation of its input (models that SQL
`ORDER BY` reorders but neither drops nor duplicates rows). -/
theorem sortBy_perm (le : α → α → Bool) (l : List α) :
    (sortBy le l).Perm l := by
  induction l with
  | nil => exact List.Perm.refl _
  | cons x xs ih =>
    exact (insertSorted_perm le x (sortBy le xs)).trans (List.Perm.cons x ih)

/-- Inserting into a `le`-sorted list keeps it sorted, for a total
transitive `le`. -/
theorem pairwise_insertSorted (le : α → α → Bool)
    (htot : ∀ a b, le a b = true ∨ le b a = true)
    (htrans : ∀ a b c, le a b = true → le b c = true → le a c = true)
    (x : α) (l : List α) (h : l.Pairwise (fun a b => le a b = true)) :
    (insertSorted le x l).Pairwise (fun a b => le a b = true) := by
  induction l with
  | nil => simp [insertSorted]
  | cons y ys ih =>
    cases h with
    | cons hy hys =>
      unfold insertSorted
      by_cases hxy : le x y = true
      · rw [if_pos hxy]
        refine List.Pairwise.cons ?_ (List.Pairwise.cons hy hys)
        intro a ha
        rcases List.mem_cons.mp ha with rfl | ha
        · exact hxy
        · exact htrans x y a hxy (hy a ha)
      · rw [if_neg hxy]
        refine List.Pairwise.cons ?_ (ih hys)
        intro a ha
        have ha2 := (insertSorted_perm le x ys).mem_iff.mp ha
        rcases List.mem_cons.mp ha2 with rfl | ha2
        · rcases htot a y with hc | hc
          · exact absurd hc hxy
          · exact hc
        · exact hy a ha2

/-- `sortBy` sorts, for a total transitive `le`. -/
theorem pairwise_sortBy (le : α → α → Bool)
    (htot : ∀ a b, le a b = true ∨ le b a = true)
    (htrans : ∀ a b c, le a b = true → le b c = true → le a c = true)
    (l : List α) : (sortBy le l).Pairwise (fun a b => le a b = true) := by
  induction l with
  | nil => simp [sortBy]
  | cons x xs ih => exact pairwise_insertSorted le htot htrans x (sortBy le xs) ih

/-- A `WHERE id = ?` lookup after an `UPDATE ... WHERE id = ?` that keeps
ids fixed returns the updated image of the original lookup. -/
theorem find?_update_map (gid : α → String) (f : α → α)
    (hf : ∀ r, gid (f r) = gid r) (id : String) (l : List α) :
    (l.map (fun r => if gid r == id then f r else r)).find?
        (fun r => gid r == id)
      = (l.find? (fun r => gid r == id)).map f := by
  induction l with
  | nil => rfl
  | cons a l ih =>
    by_cases h : (gid a == id) = true
    · have h2 : (gid (f a) == id) = true := by rw [hf]; exact h
      rw [List.map_cons,
        if_pos h,
        @List.find?_cons_of_pos α (fun r => gid r == id) (f a) _ h2,
        @List.find?_cons_of_pos α (fun r => gid r == id) a _ h]
      rfl
    · rw [List.map_cons,
        if_neg h,
        @List.find?_cons_of_neg α (fun r => gid r == id) a _ h,
        @List.find?_cons_of_neg α (fun r => gid r == id) a _ h, ih]

/-- When row ids are distinct, looking a member row up by its id finds
exactly that row. -/
theorem find?_eq_self_of_nodup (gid : α → String) (l : List α)
    (hnd : (l.map gid).Nodup) (s : α) (hs : s ∈ l) :
    l.find? (fun r => gid r == gid s) = some s := by
  induction l with
  | nil => cases hs
  | cons a l ih =>
    rw [List.map_cons, List.nodup_cons] at hnd
    rcases List.mem_cons.mp hs with rfl | hs2
    · simp [List.find?_cons]
    · rw [List.find?_cons]
      have hne : (gid a == gid s) = false := by
        rw [beq_eq_false_iff_ne]
        intro hc
        exact hnd.1 (hc ▸ List.mem_map_of_mem gid hs2)
      rw [hne]
      exact ih hnd.2 hs2

/-- A `LIMIT 1` lookup agrees with a filter that returned one row. -/
theorem find?_of_filter_singleton (p : α → Bool) (l : List α) (s : α)
    (h : l.filter p = [s]) : l.find? p = some s := by
  induction l with
  | nil => simp at h
  | cons a l ih =>
    rw [List.filter_cons] at h
    by_cases pa : p a = true
    · rw [if_pos pa] at h
      rw [List.find?_cons, pa]
      exact congrArg some (List.cons.inj h).1
    · rw [if_neg pa] at h
      rw [List.find?_cons]
      rw [Bool.not_eq_true] at pa
      rw [pa]
      exact ih h

/-- `MAX` over a list extended on the right. -/
theorem listMax_append_singleton (l : List Int) (y : Int) :
    listMax (l ++ [y]) =
      some (match listMax l with | none => y | some m => max m y) := by
  induction l with
  | nil => rfl
  | cons x xs ih =>
    show listMax (x :: (xs ++ [y])) = _
    unfold listMax
    rw [ih]
    cases h : listMax xs with
    | none => simp [listMax, h]
    | some m =>
      simp only [listMax, h]
      rw [← max_assoc]

/-- `!=` on strings is symmetric. -/
theorem strBne_comm (a b : String) : (a != b) = (b != a) := by
  by_cases h : a = b
  · rw [h]
  · have h1 : (a == b) = false := beq_eq_false_iff_ne.mpr h
    have h2 : (b == a) = false := beq_eq_false_iff_ne.mpr (fun hc => h hc.symm)
    simp [bne, h1, h2]

theorem taskTable_preservesMeta : PreservesMeta taskTable := fun _ _ => rfl

theorem categoryTable_preservesMeta : PreservesMeta categoryTable :=
  fun _ _ => rfl

theorem subtaskTable_preservesMeta : PreservesMeta subtaskTable :=
  fun _ _ => rfl

theorem timeSessionTable_preservesMeta : PreservesMeta timeSessionTable :=
  fun _ _ => rfl

/-- Appending one matching SyncRecord bumps the match count by one. -/
theorem matchCount_of_append (db' db : DB) (r : SyncRecord)
    (tn rid : String) (op : SyncOp)
    (h : db'.syncMetadata = db.syncMetadata ++ [r])
    (hpred : (r.tableName == tn && r.recordId == rid && r.operation == op)
      = true) :
    matchCount db' tn rid op = matchCount db tn rid op + 1 := by
  unfold matchCount
  rw [h, List.filter_append]
  rw [List.length_append]
  simp [List.filter, hpred]

/-- A successful create appends exactly one matching SyncRecord. -/
theorem repoCreate_matchCount (t : Table α) (hm : PreservesMeta t)
    (db : DB) (rec : α) (sid now : String) :
    matchCount (repoCreate t db rec sid now).1 t.name (t.getId rec) .create
      = matchCount db t.name (t.getId rec) .create + 1 := by
  unfold PreservesMeta at hm
  refine matchCount_of_append _ _
    { id := sid, tableName := t.name, recordId := t.getId rec,
      operation := .create, data := some (t.serialize rec), timestamp := now,
      retryCount := 0, error := none } _ _ _ ?_ (by simp)
  unfold repoCreate markForSync
  dsimp only
  rw [hm]

/-- A successful update (non-null return) appends exactly one matching
SyncRecord. -/
theorem repoUpdate_matchCount (t : Table α) (hm : PreservesMeta t)
    (db : DB) (id : String) (patch : α → α) (sid now : String)
    (h : (repoUpdate t db id patch sid now).2.isSome = true) :
    matchCount (repoUpdate t db id patch sid now).1 t.name id .update
      = matchCount db t.name id .update + 1 := by
  unfold PreservesMeta at hm
  unfold repoUpdate at h ⊢
  dsimp only at h ⊢
  cases hg : getById t (t.setRows db ((t.rows db).map
      (fun r => if t.getId r == id then t.stampUpdate (patch r) now else r)))
      id with
  | none =>
    rw [hg] at h
    simp at h
  | some u =>
    rw [hg] at h
    refine matchCount_of_append _ _
      { id := sid, tableName := t.name, recordId := id,
        operation := .update, data := some (t.serialize u), timestamp := now,
        retryCount := 0, error := none } _ _ _ ?_ (by simp)
    unfold markForSync
    dsimp only
    rw [hm]

/-- A successful delete (true return) appends exactly one matching
SyncRecord. -/
theorem repoDelete_matchCount (t : Table α) (hm : PreservesMeta t)
    (db : DB) (id : String) (sid now : String)
    (h : (repoDelete t db id sid now).2 = true) :
    matchCount (repoDelete t db id sid now).1 t.name id .delete
      = matchCount db t.name id .delete + 1 := by
  unfold PreservesMeta at hm
  unfold repoDelete at h ⊢
  cases hg : getById t db id with
  | none =>
    rw [hg] at h
    simp at h
  | some rec =>
    rw [hg] at h
    dsimp only at h ⊢
    refine matchCount_of_append _ _
      { id := sid, tableName := t.name, recordId := id,
        operation := .delete, data := some (t.serialize rec), timestamp := now,
        retryCount := 0, error := none } _ _ _ ?_ (by simp)
    unfold markForSync
    dsimp only
    rw [hm]

/-- Applying one sync item never touches the `sync_metadata` table
itself (it only flips the referenced entity's syncStatus). -/
theorem processSyncItem_syncMetadata (db : DB) (item : SyncRecord)
    (now : String) (db1 : DB) (h : processSyncItem db item now = .ok db1) :
    db1.syncMetadata = db.syncMetadata := by
  unfold processSyncItem at h
  split_ifs at h <;>
    (rw [Except.ok.injEq] at h
     rw [← h]
     rfl)

/-- The failure counter of the sync loop never decreases. -/
theorem syncLoop_failed_le (now : String) (items : List SyncRecord) :
    ∀ (db : DB) (sc fc : Nat) (errs : List String),
      fc ≤ (syncLoop now items db sc fc errs).failedCount := by
  induction items with
  | nil =>
    intro db sc fc errs
    exact Nat.le_refl fc
  | cons item rest ih =>
    intro db sc fc errs
    simp only [syncLoop]
    cases h : processSyncItem db item now with
    | ok db1 =>
      dsimp only
      exact ih _ _ _ _
    | error msg =>
      dsimp only
      exact Nat.le_of_succ_le (ih _ _ _ _)

/-- When the sync loop reports no new failures, it deleted exactly the
`sync_metadata` rows whose ids occur among the processed items. -/
theorem syncLoop_meta (now : String) (items : List SyncRecord) :
    ∀ (db : DB) (sc fc : Nat) (errs : List String),
      (syncLoop now items db sc fc errs).failedCount = fc →
      (syncLoop now items db sc fc errs).db.syncMetadata
        = db.syncMetadata.filter
            (fun m => items.all (fun i => i.id != m.id)) := by
  induction items with
  | nil =>
    intro db sc fc errs _
    simp [syncLoop]
  | cons item rest ih =>
    intro db sc fc errs hfc
    simp only [syncLoop] at hfc ⊢
    cases h : processSyncItem db item now with
    | ok db1 =>
      rw [h] at hfc
      dsimp only at hfc ⊢
      have hmeta := processSyncItem_syncMetadata db item now db1 h
      rw [ih _ _ _ _ hfc]
      simp only [hmeta]
      rw [List.filter_filter]
      refine List.filter_congr ?_
      intro m _
      rw [List.all_cons]
      rw [Bool.and_comm]
      rw [strBne_comm]
    | error msg =>
      exfalso
      rw [h] at hfc
      dsimp only at hfc
      have := syncLoop_failed_le now rest
        { db with syncMetadata := db.syncMetadata.map (fun m =>
            if m.id == item.id
            then { m with retryCount := item.retryCount + 1, error := some msg }
            else m) } sc (fc + 1)
        (errs ++ ["Failed to sync " ++ item.tableName ++ " " ++
          item.recordId ++ ": " ++ msg])
      omega

/-- Characterization of a found update: the row read back is the stamped
patched image of the row the lookup found, and the state is the mapped
table plus one outbox row. -/
theorem repoUpdate_found (t : Table α)
    (hrows : ∀ (db : DB) (l : List α), t.rows (t.setRows db l) = l)
    (db : DB) (id sid now : String) (patch : α → α) (r : α)
    (hid : ∀ x, t.getId (t.stampUpdate (patch x) now) = t.getId x)
    (h : getById t db id = some r) :
    repoUpdate t db id patch sid now =
      (markForSync t
        (t.setRows db ((t.rows db).map
          (fun x => if t.getId x == id then t.stampUpdate (patch x) now else x)))
        sid id .update
        (some (t.serialize (t.stampUpdate (patch r) now))) now,
       some (t.stampUpdate (patch r) now)) := by
  have hpred : t.getId r == id := by
    unfold getById at h
    have := List.find?_some h
    exact this
  have hg : getById t
      (t.setRows db ((t.rows db).map
        (fun x => if t.getId x == id then t.stampUpdate (patch x) now else x)))
      id = some (t.stampUpdate (patch r) now) := by
    unfold getById
    rw [hrows]
    rw [find?_update_map t.getId (fun x => t.stampUpdate (patch x) now) hid id
      (t.rows db)]
    unfold getById at h
    rw [h]
    rfl
  unfold repoUpdate
  dsimp only
  rw [hg]

/-- Characterization of a create whose fresh id does not collide with an
existing row: the new row is appended and read back as-is. -/
theorem repoCreate_found (t : Table α)
    (hrows : ∀ (db : DB) (l : List α), t.rows (t.setRows db l) = l)
    (hmark : ∀ (db : DB) (sid rid : String) (op : SyncOp)
      (data : Option String) (ts : String),
      t.rows (markForSync t db sid rid op data ts) = t.rows db)
    (db : DB) (rec : α) (sid now : String)
    (hfresh : ∀ x ∈ t.rows db, t.getId x ≠ t.getId rec) :
    repoCreate t db rec sid now =
      (markForSync t (t.setRows db (t.rows db ++ [rec])) sid (t.getId rec)
        .create (some (t.serialize rec)) now, some rec) := by
  have hg : getById t
      (markForSync t (t.setRows db (t.rows db ++ [rec])) sid (t.getId rec)
        .create (some (t.serialize rec)) now) (t.getId rec) = some rec := by
    unfold getById
    rw [hmark, hrows]
    rw [List.find?_append]
    have h1 : (t.rows db).find? (fun x => t.getId x == t.getId rec) = none := by
      rw [List.find?_eq_none]
      intro x hx
      simp only [beq_iff_eq]
      exact hfresh x hx
    rw [h1]
    simp
  unfold repoCreate
  dsimp only
  rw [hg]

/-- Characterization of toggleCompletion on a found task. -/
theorem toggleCompletion_found (db : DB) (id sid now : String) (t0 : Task)
    (h : getById taskTable db id = some t0) :
    toggleCompletion db id sid now =
      (let u : Task := { t0 with
         completed := !t0.completed,
         actualTime := if t0.completed then none else t0.actualTime,
         updatedAt := now, syncStatus := .pending }
       let db1 := markForSync taskTable
         (taskTable.setRows db (db.tasks.map (fun x =>
           if x.id == id
           then { x with
             completed := !t0.completed,
             actualTime := if t0.completed then none else t0.actualTime,
             updatedAt := now, syncStatus := .pending }
           else x)))
         sid id .update (some (taskTable.serialize u)) now
       if u.completed
       then ({ db1 with subtasks := db1.subtasks.map (fun s =>
               if s.taskId == id
               then { s with completed := true, updatedAt := now,
                             syncStatus := SyncStatus.pending }
               else s) }, some u)
       else (db1, some u)) := by
  unfold toggleCompletion
  rw [h]
  dsimp only
  rw [repoUpdate_found taskTable (fun _ _ => rfl) db id sid now
    (fun r => { r with
      completed := !t0.completed,
      actualTime := if t0.completed then none else t0.actualTime })
    t0 (fun _ => rfl) h]
  dsimp only
  rfl

/-- C3: whenever a performSync call is still unresolved (the
syncInProgress guard is set), a second performSync call fails immediately
with the "sync already in progress" error and returns the state — every
table, in particular sync_metadata — entirely unchanged. -/
theorem performSync_exclusive (s : SyncState) (now : String)
    (h : s.syncInProgress = true) :
    performSync s now = (s, .error "Sync is already in progress") := by
  unfold performSync
  rw [if_pos h]

/-- C3 witness: with a sync in flight over a one-row outbox, a second
call errors and leaves the state intact. -/
theorem performSync_exclusive_witness :
    c3State.syncInProgress = true ∧
    performSync c3State "2026-10-11T00:00:00.000Z"
      = (c3State, .error "Sync is already in progress") :=
  ⟨rfl, performSync_exclusive c3State "2026-10-11T00:00:00.000Z" rfl⟩

/-- C2 (amended): getPendingSyncItems — the read performSync drains, in
list order — returns a permutation of the whole sync_metadata table (no
filtering by age or entity) ordered by timestamp DESCENDING, newest
first; the claim's "oldest timestamp first" does not hold. -/
theorem getPendingSyncItems_spec (db : DB) :
    (getPendingSyncItems db).Perm db.syncMetadata ∧
    (getPendingSyncItems db).Pairwise
      (fun a b => strLe b.timestamp a.timestamp = true) := by
  constructor
  · exact sortBy_perm _ _
  · exact pairwise_sortBy _
      (fun a b => strLe_total b.timestamp a.timestamp)
      (fun a b c h1 h2 => strLe_trans c.timestamp b.timestamp a.timestamp h2 h1)
      db.syncMetadata

/-- C2 counterexample: with two outbox rows the pending list comes back
newest-first — the older row is processed second, refuting "ordered by
their timestamp ascending, oldest timestamp first". -/
theorem getPendingSyncItems_not_ascending :
    getPendingSyncItems c2DB = [c2Rec2, c2Rec1] ∧
    strLt c2Rec1.timestamp c2Rec2.timestamp = true ∧
    ¬ (getPendingSyncItems c2DB).Pairwise
        (fun a b => strLe a.timestamp b.timestamp = true) := by
  refine ⟨by decide, by decide, ?_⟩
  intro h
  rw [show getPendingSyncItems c2DB = [c2Rec2, c2Rec1] from by decide] at h
  cases h with
  | cons hh _ =>
    have := hh c2Rec1 (by simp)
    revert this
    decide

/-- C4: the overdue query ignores the current instant entirely — the
not-completed task whose due date lies far in the future is returned by
getOverdue and counted in getStatistics.overdue, although its due date
has not passed.  (The source computes `now` and never uses it in the
WHERE clause.) -/
theorem getOverdue_counts_future_task :
    getOverdue c4DB c4Now = [c4Task] ∧
    (getStatistics c4DB c4Now).overdue = 1 ∧
    c4Task.completed = false ∧
    strLt c4Now (c4Task.dueDate.getD "") = true := by
  decide

/-- C5 (amended): category-name uniqueness is enforced with an exact,
case-SENSITIVE comparison: creating a category whose name is byte-wise
equal to an existing one fails with the duplicate-name error and writes
nothing, while a name differing from every existing one (even only in
letter case) is inserted. -/
theorem createCategory_unique_case_sensitive (db : DB)
    (data : NewCategoryData) (newId syncId now : String) :
    ((∃ c ∈ db.categories, c.name = data.name) →
      createCategory db data newId syncId now =
        (db, .error ("Category with name \"" ++ data.name ++
          "\" already exists"))) ∧
    ((∀ c ∈ db.categories, c.name ≠ data.name) →
      (∀ c ∈ db.categories, c.id ≠ newId) →
      (createCategory db data newId syncId now).2
          = .ok (mkCategory data newId now) ∧
        (createCategory db data newId syncId now).1.categories
          = db.categories ++ [mkCategory data newId now]) := by
  constructor
  · rintro ⟨c, hc, hname⟩
    have hex : nameExists db data.name none = true := by
      unfold nameExists
      dsimp only
      have hmem : c ∈ db.categories.filter (fun x => x.name == data.name) :=
        List.mem_filter.mpr ⟨hc, by rw [beq_iff_eq]; exact hname⟩
      have : db.categories.filter (fun x => x.name == data.name) ≠ [] :=
        List.ne_nil_of_mem hmem
      simp [List.isEmpty_iff, this]
    unfold createCategory
    rw [if_pos hex]
  · intro hnone hfresh
    have hex : nameExists db data.name none = false := by
      unfold nameExists
      have : db.categories.filter (fun x => x.name == data.name) = [] := by
        rw [List.filter_eq_nil_iff]
        intro c hc
        rw [beq_iff_eq]
        exact hnone c hc
      simp [this]
    unfold createCategory
    rw [hex, if_neg (by simp)]
    rw [repoCreate_found categoryTable (fun _ _ => rfl)
      (fun _ _ _ _ _ _ => rfl) db (mkCategory data newId now) syncId now
      (fun x hx => hfresh x hx)]
    exact ⟨rfl, rfl⟩

/-- C5 witness: "Work" twice fails and writes nothing; exercising the
success path, a fresh name is inserted. -/
theorem createCategory_unique_witness :
    createCategory c5DB { name := "Work", color := "#000000", icon := none }
        "c2" "m1" "2026-01-02T00:00:00.000Z"
      = (c5DB, .error "Category with name \"Work\" already exists") ∧
    (createCategory c5DB { name := "Home", color := "#000000", icon := none }
        "c2" "m1" "2026-01-02T00:00:00.000Z").1.categories
      = c5DB.categories ++
          [mkCategory { name := "Home", color := "#000000", icon := none }
            "c2" "2026-01-02T00:00:00.000Z"] :=
  ⟨(createCategory_unique_case_sensitive c5DB
      { name := "Work", color := "#000000", icon := none } "c2" "m1"
      "2026-01-02T00:00:00.000Z").1 ⟨c5Work, by decide, by decide⟩,
   ((createCategory_unique_case_sensitive c5DB
      { name := "Home", color := "#000000", icon := none } "c2" "m1"
      "2026-01-02T00:00:00.000Z").2 (by decide) (by decide)).2⟩

/-- C5 counterexample: with "Work" present, creating "work" (a case
variant) does NOT fail — it succeeds and inserts a second row, refuting
the claimed case-insensitive uniqueness check. -/
theorem createCategory_case_variant_inserted :
    (createCategory c5DB { name := "work", color := "#000000", icon := none }
        "c2" "m1" "2026-01-02T00:00:00.000Z").2
      = .ok (mkCategory { name := "work", color := "#000000", icon := none }
          "c2" "2026-01-02T00:00:00.000Z") ∧
    (createCategory c5DB { name := "work", color := "#000000", icon := none }
        "c2" "m1" "2026-01-02T00:00:00.000Z").1.categories.length = 2 := by
  decide

/-- C6 (amended): endSession on an already-ended session returns null to
its caller — the internal domain error is caught by the method's own
catch, so no exception reaches the caller — and the state is unchanged;
on a still-active session it sets endTime := now and computes
duration = floor((now − startTime) / 1000) seconds from the abstracted
Date parsing `parse`. -/
theorem endSession_spec (db : DB) (id : String) (notes : Option String)
    (parse : String → Int) (sid now : String) (s : TimeSession)
    (h : getById timeSessionTable db id = some s) :
    (s.endTime.isSome = true →
      endSession db id notes parse sid now = (db, .ok none)) ∧
    (s.endTime = none →
      (endSession db id notes parse sid now).2 =
        .ok (some { s with
          endTime := some now,
          duration := some (Int.fdiv (parse now - parse s.startTime) 1000),
          notes := jsOr notes s.notes,
          updatedAt := now, syncStatus := .pending })) := by
  constructor
  · intro he
    unfold endSession
    rw [h]
    dsimp only
    cases hx : s.endTime with
    | none => rw [hx] at he; simp at he
    | some e => rfl
  · intro he
    unfold endSession
    rw [h]
    dsimp only
    rw [he]
    dsimp only
    rw [repoUpdate_found timeSessionTable (fun _ _ => rfl) db id sid now
      (fun r => { r with
        endTime := some now,
        duration := some (Int.fdiv (parse now - parse s.startTime) 1000),
        notes := jsOr notes s.notes })
      s (fun _ => rfl) h]
    rfl

/-- C6 witness: the two branches at concrete sessions — the ended
session "e1" yields null with the state untouched; the active session
"a1" gets endTime and the computed duration. -/
theorem endSession_spec_witness :
    (endSession c6DB "e1" none (fun _ => 0) "m1" "2026-01-03T00:00:00.000Z"
      = (c6DB, .ok none)) ∧
    ((endSession c6DB "a1" none (fun ts => if ts == "2026-01-03T00:00:00.000Z"
          then 100000 else 0) "m1" "2026-01-03T00:00:00.000Z").2 =
      .ok (some { c6Active with
        endTime := some "2026-01-03T00:00:00.000Z",
        duration := some 100,
        notes := jsOr none c6Active.notes,
        updatedAt := "2026-01-03T00:00:00.000Z", syncStatus := .pending })) :=
  ⟨(endSession_spec c6DB "e1" none (fun _ => 0) "m1"
      "2026-01-03T00:00:00.000Z" c6Ended rfl).1 rfl,
   (endSession_spec c6DB "a1" none
      (fun ts => if ts == "2026-01-03T00:00:00.000Z" then 100000 else 0)
      "m1" "2026-01-03T00:00:00.000Z" c6Active rfl).2 rfl⟩

/-- C6 counterexample: ending the already-ended session "e1" does NOT
surface an error to the caller — the call returns ok-null with the
database unchanged, refuting "fails with a DomainError that is thrown to
the immediate caller (it does not silently return a null/absent
result)". -/
theorem endSession_already_ended_returns_null :
    endSession c6DB "e1" none (fun _ => 0) "m1" "2026-01-03T00:00:00.000Z"
      = (c6DB, .ok none) ∧
    c6Ended.endTime.isSome = true := by
  constructor
  · exact (endSession_spec c6DB "e1" none (fun _ => 0) "m1"
      "2026-01-03T00:00:00.000Z" c6Ended rfl).1 rfl
  · decide

/-- The task toggleCompletion returns: completed flipped, actualTime
reset to null exactly when un-completing. -/
theorem toggle_map_result (db : DB) (id sid now : String)
    (t0 : Task) (h : getById taskTable db id = some t0) :
    (toggleCompletion db id sid now).2.map Task.completed
        = some (!t0.completed) ∧
    (toggleCompletion db id sid now).2.map Task.actualTime
        = some (if t0.completed then none else t0.actualTime) := by
  rw [toggleCompletion_found db id sid now t0 h]
  dsimp only
  constructor
  · split_ifs <;> rfl
  · split_ifs <;> rfl

/-- C10: toggleCompletion flips `completed` and handles `actualTime`
exactly as claimed: un-completing a completed task resets actualTime to
null, while completing an incomplete task leaves actualTime unchanged. -/
theorem toggleCompletion_actualTime (db : DB) (id sid now : String)
    (t0 : Task) (h : getById taskTable db id = some t0) :
    (toggleCompletion db id sid now).2.map Task.completed
        = some (!t0.completed) ∧
    (toggleCompletion db id sid now).2.map Task.actualTime
        = some (if t0.completed then none else t0.actualTime) :=
  toggle_map_result db id sid now t0 h

/-- C10 witness: un-completing the completed task "t1" (actualTime 42)
returns a task with completed = false and actualTime = null. -/
theorem toggleCompletion_actualTime_witness :
    (toggleCompletion c10DB "t1" "m1" "2026-01-02T00:00:00.000Z").2.map
        Task.completed = some (!c10Task.completed) ∧
    (toggleCompletion c10DB "t1" "m1" "2026-01-02T00:00:00.000Z").2.map
        Task.actualTime
      = some (if c10Task.completed then none else c10Task.actualTime) :=
  toggleCompletion_actualTime c10DB "t1" "m1" "2026-01-02T00:00:00.000Z"
    c10Task rfl

/-- A performSync run that reports zero failures leaves sync_metadata
empty. -/
theorem performSync_drain (s : SyncState) (now : String) (r : SyncResult)
    (h : (performSync s now).2 = .ok r) (hf : r.failedCount = 0) :
    (performSync s now).1.db.syncMetadata = [] := by
  unfold performSync at h ⊢
  by_cases hp : s.syncInProgress = true
  · rw [if_pos hp] at h
    simp at h
  · rw [if_neg hp] at h ⊢
    dsimp only at h ⊢
    by_cases he : (getPendingSyncItems s.db).isEmpty = true
    · rw [if_pos he]
      dsimp only
      have hnil : getPendingSyncItems s.db = [] := List.isEmpty_iff.mp he
      have hperm := sortBy_perm
        (fun a b : SyncRecord => strLe b.timestamp a.timestamp)
        s.db.syncMetadata
      unfold getPendingSyncItems at hnil
      rw [hnil] at hperm
      exact hperm.symm.eq_nil
    · rw [if_neg he] at h ⊢
      dsimp only at h ⊢
      rw [Except.ok.injEq] at h
      have hout : (syncLoop now (getPendingSyncItems s.db) s.db 0 0
          []).failedCount = 0 := by
        rw [← h] at hf
        exact hf
      rw [syncLoop_meta now (getPendingSyncItems s.db) s.db 0 0 [] hout]
      rw [List.filter_eq_nil_iff]
      intro m hm hall
      have hmp : m ∈ getPendingSyncItems s.db :=
        (sortBy_perm _ _).mem_iff.mpr hm
      have hself := List.all_eq_true.mp hall m hmp
      simp at hself

/-- C1 (amended): every successful create, update or delete through a
repository (excluding batchCreate) appends exactly ONE new SyncRecord
whose tableName, recordId and operation match that mutation — the count
of matching rows grows by exactly one (repeated mutations of the same
record accumulate, so "exactly one exists" holds only for the rows a
single mutation adds); and after a performSync run that completes with
failedCount = 0, zero SyncRecords remain in sync_metadata. -/
theorem outbox_enqueue_once_and_drain :
    (∀ (α : Type) (t : Table α), PreservesMeta t →
      ∀ (db : DB) (rec : α) (sid now : String),
        matchCount (repoCreate t db rec sid now).1 t.name (t.getId rec)
            .create
          = matchCount db t.name (t.getId rec) .create + 1) ∧
    (∀ (α : Type) (t : Table α), PreservesMeta t →
      ∀ (db : DB) (id : String) (patch : α → α) (sid now : String),
        (repoUpdate t db id patch sid now).2.isSome = true →
        matchCount (repoUpdate t db id patch sid now).1 t.name id .update
          = matchCount db t.name id .update + 1) ∧
    (∀ (α : Type) (t : Table α), PreservesMeta t →
      ∀ (db : DB) (id : String) (sid now : String),
        (repoDelete t db id sid now).2 = true →
        matchCount (repoDelete t db id sid now).1 t.name id .delete
          = matchCount db t.name id .delete + 1) ∧
    (∀ (s : SyncState) (now : String) (r : SyncResult),
      (performSync s now).2 = .ok r → r.failedCount = 0 →
      (performSync s now).1.db.syncMetadata = []) :=
  ⟨fun _ t hm db rec sid now => repoCreate_matchCount t hm db rec sid now,
   fun _ t hm db id patch sid now h =>
     repoUpdate_matchCount t hm db id patch sid now h,
   fun _ t hm db id sid now h => repoDelete_matchCount t hm db id sid now h,
   fun s now r h hf => performSync_drain s now r h hf⟩

/-- C1 witness: one create, one update and one delete each add exactly
one matching outbox row over the concrete subtask database, and draining
the one-row outbox with performSync leaves sync_metadata empty. -/
theorem outbox_enqueue_once_and_drain_witness :
    (matchCount (repoCreate subtaskTable c1DB c1NewSub "m9"
        "2026-01-05T00:00:00.000Z").1 "subtasks" "s9" .create
      = matchCount c1DB "subtasks" "s9" .create + 1) ∧
    (matchCount (repoUpdate subtaskTable c1DB "s1"
        (fun r => { r with completed := true }) "m8"
        "2026-01-05T00:00:00.000Z").1 "subtasks" "s1" .update
      = matchCount c1DB "subtasks" "s1" .update + 1) ∧
    (matchCount (repoDelete subtaskTable c1DB "s1" "m7"
        "2026-01-05T00:00:00.000Z").1 "subtasks" "s1" .delete
      = matchCount c1DB "subtasks" "s1" .delete + 1) ∧
    (performSync { db := c1SyncDB, syncInProgress := false }
        "2026-01-06T00:00:00.000Z").1.db.syncMetadata = [] :=
  ⟨outbox_enqueue_once_and_drain.1 Subtask subtaskTable
     subtaskTable_preservesMeta c1DB c1NewSub "m9" "2026-01-05T00:00:00.000Z",
   outbox_enqueue_once_and_drain.2.1 Subtask subtaskTable
     subtaskTable_preservesMeta c1DB "s1"
     (fun r => { r with completed := true }) "m8" "2026-01-05T00:00:00.000Z"
     (by decide),
   outbox_enqueue_once_and_drain.2.2.1 Subtask subtaskTable
     subtaskTable_preservesMeta c1DB "s1" "m7" "2026-01-05T00:00:00.000Z"
     (by decide),
   outbox_enqueue_once_and_drain.2.2.2
     { db := c1SyncDB, syncInProgress := false } "2026-01-06T00:00:00.000Z"
     { success := true, syncedCount := 1, failedCount := 0, errors := [] }
     (by decide) rfl⟩

/-- C1 counterexample: after two successful updates of the same subtask,
TWO SyncRecords with tableName "subtasks", recordId "s1" and operation
update exist in sync_metadata — refuting "exactly one SyncRecord whose
tableName, recordId, and operation match that mutation exists
afterward". -/
theorem outbox_not_exactly_one :
    (let step1 := repoUpdate subtaskTable c1DB "s1"
       (fun r => { r with title := "draft v2" }) "m2"
       "2026-01-02T00:00:00.000Z"
     let step2 := repoUpdate subtaskTable step1.1 "s1"
       (fun r => { r with title := "draft v3" }) "m3"
       "2026-01-03T00:00:00.000Z"
     step2.2.isSome = true ∧
       matchCount step2.1 "subtasks" "s1" .update = 2) := by
  decide

/-- Lookup by id commutes with mapping an id-preserving function over
the rows. -/
theorem find?_map_gid_pres (gid : α → String) (f : α → α)
    (hf : ∀ x, gid (f x) = gid x) (id0 : String) (l : List α) :
    (l.map f).find? (fun r => gid r == id0)
      = (l.find? (fun r => gid r == id0)).map f := by
  rw [List.find?_map]
  have hcomp : ((fun r => gid r == id0) ∘ f) = (fun r => gid r == id0) :=
    funext (fun x => by simp only [Function.comp_apply]; rw [hf])
  rw [hcomp]

/-- Looking the toggled task up again returns the toggled row. -/
theorem getById_toggle (db : DB) (id sid now : String) (t0 : Task)
    (h : getById taskTable db id = some t0) :
    getById taskTable (toggleCompletion db id sid now).1 id =
      some ({ t0 with
        completed := !t0.completed,
        actualTime := if t0.completed then none else t0.actualTime,
        updatedAt := now, syncStatus := .pending }) := by
  have h2 := h
  unfold getById at h2
  have hpred : (t0.id == id) = true :=
    @List.find?_some Task (fun r => taskTable.getId r == id) t0
      (taskTable.rows db) h2
  have h3 : db.tasks.find? (fun r => r.id == id) = some t0 := h2
  rw [toggleCompletion_found db id sid now t0 h]
  dsimp only
  have hbody : (db.tasks.map (fun x =>
      if x.id == id
      then ({ x with
              completed := !t0.completed,
              actualTime := if t0.completed then none else t0.actualTime,
              updatedAt := now, syncStatus := SyncStatus.pending })
      else x)).find? (fun r => r.id == id)
        = some ({ t0 with
                  completed := !t0.completed,
                  actualTime := if t0.completed then none else t0.actualTime,
                  updatedAt := now, syncStatus := .pending }) := by
    rw [find?_map_gid_pres (fun x : Task => x.id)
      (fun x => if x.id == id
        then ({ x with
                completed := !t0.completed,
                actualTime := if t0.completed then none else t0.actualTime,
                updatedAt := now, syncStatus := SyncStatus.pending })
        else x)
      (fun x => by
        dsimp only
        by_cases hx : (x.id == id) = true
        · rw [if_pos hx]
        · rw [if_neg hx])
      id db.tasks]
    rw [h3]
    dsimp only [Option.map]
    rw [if_pos hpred]
  by_cases hc : (!t0.completed) = true
  · rw [if_pos hc]
    exact hbody
  · rw [if_neg hc]
    exact hbody

/-- C7: toggling a task's completion twice returns it to its original
completed value, and the cascade to subtasks fires only on the
incomplete→completed transition: after the first toggle every subtask of
the task is completed, and the second toggle (completed→incomplete)
leaves the subtasks table entirely unchanged. -/
theorem toggle_twice_cascade (db : DB) (id sid1 sid2 n1 n2 : String)
    (t0 : Task) (h : getById taskTable db id = some t0)
    (hc : t0.completed = false) :
    ((toggleCompletion (toggleCompletion db id sid1 n1).1 id sid2 n2).2.map
        Task.completed = some t0.completed) ∧
    (∀ s ∈ (toggleCompletion db id sid1 n1).1.subtasks,
      s.taskId = id → s.completed = true) ∧
    ((toggleCompletion (toggleCompletion db id sid1 n1).1 id sid2 n2).1.subtasks
      = (toggleCompletion db id sid1 n1).1.subtasks) := by
  have h1 := getById_toggle db id sid1 n1 t0 h
  refine ⟨?_, ?_, ?_⟩
  · have h2 := (toggle_map_result (toggleCompletion db id sid1 n1).1 id sid2 n2
      _ h1).1
    rw [h2]
    dsimp only
    rw [Bool.not_not]
  · rw [toggleCompletion_found db id sid1 n1 t0 h]
    dsimp only
    rw [hc]
    rw [if_pos (by decide)]
    dsimp only
    intro s hs hsid
    rw [List.mem_map] at hs
    obtain ⟨s0, _, rfl⟩ := hs
    by_cases hx : (s0.taskId == id) = true
    · rw [if_pos hx]
    · rw [if_neg hx] at hsid ⊢
      exact absurd hsid (by simpa using hx)
  · rw [toggleCompletion_found (toggleCompletion db id sid1 n1).1 id sid2 n2
      _ h1]
    dsimp only
    rw [Bool.not_not, hc]
    rw [if_neg (by decide)]
    rfl

/-- C7 witness: on the concrete incomplete task with one incomplete
subtask, toggling twice restores completed = false, the first toggle
completes the subtask, and the second leaves the subtasks untouched. -/
theorem toggle_twice_cascade_witness :
    ((toggleCompletion (toggleCompletion c7DB "t1" "m1"
        "2026-01-02T00:00:00.000Z").1 "t1" "m2"
        "2026-01-03T00:00:00.000Z").2.map Task.completed
      = some c7Task.completed) ∧
    (∀ s ∈ (toggleCompletion c7DB "t1" "m1"
        "2026-01-02T00:00:00.000Z").1.subtasks,
      s.taskId = "t1" → s.completed = true) ∧
    ((toggleCompletion (toggleCompletion c7DB "t1" "m1"
        "2026-01-02T00:00:00.000Z").1 "t1" "m2"
        "2026-01-03T00:00:00.000Z").1.subtasks
      = (toggleCompletion c7DB "t1" "m1"
          "2026-01-02T00:00:00.000Z").1.subtasks) :=
  toggle_twice_cascade c7DB "t1" "m1" "m2" "2026-01-02T00:00:00.000Z"
    "2026-01-03T00:00:00.000Z" c7Task rfl rfl

/-- Characterization of createSubtask when the fresh id does not collide:
the new row carries order = max existing order for the task + 1. -/
theorem createSubtask_spec (db : DB) (data : NewSubtaskData)
    (nid sid now : String) (hfresh : ∀ s ∈ db.subtasks, s.id ≠ nid) :
    createSubtask db data nid sid now =
      (markForSync subtaskTable
        (subtaskTable.setRows db (db.subtasks ++
          [mkSubtask data (maxOrderFor db data.taskId + 1) nid now]))
        sid nid .create
        (some (serializeSubtask
          (mkSubtask data (maxOrderFor db data.taskId + 1) nid now))) now,
       some (mkSubtask data (maxOrderFor db data.taskId + 1) nid now)) := by
  unfold createSubtask
  dsimp only
  rw [repoCreate_found subtaskTable (fun _ _ => rfl) (fun _ _ _ _ _ _ => rfl)
    db (mkSubtask data (maxOrderFor db data.taskId + 1) nid now) sid now
    (fun x hx => hfresh x hx)]
  rfl

/-- Appending a subtask whose order is max + 1 raises the task's max
order by one. -/
theorem maxOrder_append (db db2 : DB) (tid : String) (st : Subtask)
    (hsub : db2.subtasks = db.subtasks ++ [st]) (hst : st.taskId = tid)
    (horder : st.order = maxOrderFor db tid + 1) :
    maxOrderFor db2 tid = maxOrderFor db tid + 1 := by
  have hpass : (st.taskId == tid) = true := by rw [beq_iff_eq]; exact hst
  have hfilter : db2.subtasks.filter (fun s => s.taskId == tid)
      = db.subtasks.filter (fun s => s.taskId == tid) ++ [st] := by
    rw [hsub, List.filter_append]
    congr 1
    simp [List.filter, hpass]
  have hmap : (db2.subtasks.filter (fun s => s.taskId == tid)).map
        (fun s => s.order)
      = (db.subtasks.filter (fun s => s.taskId == tid)).map
          (fun s => s.order) ++ [st.order] := by
    rw [hfilter, List.map_append]
    rfl
  show (listMax ((db2.subtasks.filter (fun s => s.taskId == tid)).map
    (fun s => s.order))).getD 0 = _
  rw [hmap, listMax_append_singleton]
  cases hmax : listMax ((db.subtasks.filter (fun s => s.taskId == tid)).map
      (fun s => s.order)) with
  | none =>
    dsimp only [Option.getD]
    exact horder
  | some k =>
    dsimp only [Option.getD]
    have hm : maxOrderFor db tid = k := by
      unfold maxOrderFor
      rw [hmax]
      rfl
    rw [hm] at horder
    rw [hm, horder]
    exact max_eq_right (by omega)

/-- Sequential createSubtask calls under one task assign strictly
increasing orders m+1, m+2, ... matching the creation sequence. -/
theorem createSubtasksSeq_orders (tid : String) :
    ∀ (db : DB) (inputs : List SubtaskIn),
      ((db.subtasks.map Subtask.id) ++ inputs.map SubtaskIn.newId).Nodup →
      (createSubtasksSeq db tid inputs).2.map (fun o => o.map Subtask.order)
        = (ascOrders (maxOrderFor db tid) inputs.length).map some := by
  intro db inputs
  induction inputs generalizing db with
  | nil => intro _; rfl
  | cons i is ih =>
    intro hnd
    rw [List.map_cons] at hnd
    have hfresh : ∀ s ∈ db.subtasks, s.id ≠ i.newId := by
      intro s hs hc
      have hmem : s.id ∈ db.subtasks.map Subtask.id :=
        List.mem_map_of_mem Subtask.id hs
      exact (List.nodup_append.mp hnd).2.2 hmem
        (hc ▸ List.mem_cons_self _ _)
    unfold createSubtasksSeq
    rw [createSubtask_spec db ⟨tid, i.title, i.completed⟩ i.newId i.syncId
      i.now hfresh]
    dsimp only
    rw [List.map_cons, List.length_cons]
    show _ :: _ = List.map some (ascOrders (maxOrderFor db tid)
      (is.length + 1))
    rw [show ascOrders (maxOrderFor db tid) (is.length + 1)
      = (maxOrderFor db tid + 1) ::
          ascOrders (maxOrderFor db tid + 1) is.length from rfl]
    rw [List.map_cons]
    congr 1
    have hmax2 : maxOrderFor (markForSync subtaskTable
        (subtaskTable.setRows db (db.subtasks ++
          [mkSubtask ⟨tid, i.title, i.completed⟩
            (maxOrderFor db tid + 1) i.newId i.now]))
        i.syncId i.newId .create
        (some (serializeSubtask (mkSubtask ⟨tid, i.title, i.completed⟩
          (maxOrderFor db tid + 1) i.newId i.now))) i.now) tid
        = maxOrderFor db tid + 1 :=
      maxOrder_append db _ tid
        (mkSubtask ⟨tid, i.title, i.completed⟩
          (maxOrderFor db tid + 1) i.newId i.now) rfl rfl rfl
    have hids : (markForSync subtaskTable
        (subtaskTable.setRows db (db.subtasks ++
          [mkSubtask ⟨tid, i.title, i.completed⟩
            (maxOrderFor db tid + 1) i.newId i.now]))
        i.syncId i.newId .create
        (some (serializeSubtask (mkSubtask ⟨tid, i.title, i.completed⟩
          (maxOrderFor db tid + 1) i.newId i.now))) i.now).subtasks.map
          Subtask.id
        = (db.subtasks.map Subtask.id) ++ [i.newId] := by
      show (db.subtasks ++ [mkSubtask ⟨tid, i.title, i.completed⟩
        (maxOrderFor db tid + 1) i.newId i.now]).map Subtask.id = _
      rw [List.map_append]
      rfl
    have hnd2 : ((markForSync subtaskTable
        (subtaskTable.setRows db (db.subtasks ++
          [mkSubtask ⟨tid, i.title, i.completed⟩
            (maxOrderFor db tid + 1) i.newId i.now]))
        i.syncId i.newId .create
        (some (serializeSubtask (mkSubtask ⟨tid, i.title, i.completed⟩
          (maxOrderFor db tid + 1) i.newId i.now))) i.now).subtasks.map
          Subtask.id ++ is.map SubtaskIn.newId).Nodup := by
      rw [hids]
      rw [List.append_cons] at hnd
      exact hnd
    rw [ih _ hnd2, hmax2]

/-- Looking up any id after an update: the result is the update's image
of the original lookup. -/
theorem getById_repoUpdate_other (t : Table α)
    (hrows : ∀ (db : DB) (l : List α), t.rows (t.setRows db l) = l)
    (hmark : ∀ (db : DB) (sid rid : String) (op : SyncOp)
      (data : Option String) (ts : String),
      t.rows (markForSync t db sid rid op data ts) = t.rows db)
    (db : DB) (id sid now : String) (patch : α → α)
    (hid : ∀ x, t.getId (t.stampUpdate (patch x) now) = t.getId x)
    (qid : String) :
    getById t (repoUpdate t db id patch sid now).1 qid
      = (getById t db qid).map
          (fun x => if t.getId x == id then t.stampUpdate (patch x) now
            else x) := by
  have hf : ∀ x, t.getId (if t.getId x == id
      then t.stampUpdate (patch x) now else x) = t.getId x := by
    intro x
    by_cases hx : (t.getId x == id) = true
    · rw [if_pos hx]
      exact hid x
    · rw [if_neg hx]
  unfold repoUpdate
  dsimp only
  cases hg : getById t (t.setRows db ((t.rows db).map
      (fun x => if t.getId x == id then t.stampUpdate (patch x) now else x)))
      id with
  | some u =>
    dsimp only
    unfold getById
    rw [hmark, hrows]
    exact find?_map_gid_pres t.getId _ hf qid (t.rows db)
  | none =>
    dsimp only
    unfold getById
    rw [hrows]
    exact find?_map_gid_pres t.getId _ hf qid (t.rows db)

/-- moveUp on a subtask with a direct predecessor swaps the two rows'
order values. -/
theorem moveUp_swap (db : DB) (id sid1 sid2 now : String) (st prev : Subtask)
    (hnd : (db.subtasks.map Subtask.id).Nodup)
    (hget : getById subtaskTable db id = some st)
    (hord : 1 < st.order)
    (hfind : db.subtasks.find? (fun s =>
      s.taskId == st.taskId && s.order == st.order - 1) = some prev) :
    (moveUp db id sid1 sid2 now).2 = true ∧
    (getById subtaskTable (moveUp db id sid1 sid2 now).1 id).map Subtask.order
      = some prev.order ∧
    (getById subtaskTable (moveUp db id sid1 sid2 now).1 prev.id).map
      Subtask.order = some st.order := by
  have h2 := hget
  unfold getById at h2
  have hpred : (st.id == id) = true :=
    @List.find?_some Subtask (fun r => subtaskTable.getId r == id) st
      (subtaskTable.rows db) h2
  have hideq : st.id = id := by simpa using hpred
  subst hideq
  have hstmem : st ∈ db.subtasks := List.mem_of_find?_eq_some h2
  have hprevmem : prev ∈ db.subtasks := List.mem_of_find?_eq_some hfind
  have hprevpred := List.find?_some hfind
  rw [Bool.and_eq_true] at hprevpred
  have hprevord : prev.order = st.order - 1 := by
    have h3 := hprevpred.2
    rwa [beq_iff_eq] at h3
  have hneid : prev.id ≠ st.id := by
    intro hc
    have e1 : db.subtasks.find? (fun r => r.id == st.id) = some st :=
      find?_eq_self_of_nodup (fun x : Subtask => x.id) db.subtasks hnd st
        hstmem
    have e2 : db.subtasks.find? (fun r => r.id == prev.id) = some prev :=
      find?_eq_self_of_nodup (fun x : Subtask => x.id) db.subtasks hnd prev
        hprevmem
    rw [hc, e1] at e2
    have e3 : st = prev := Option.some.inj e2
    rw [← e3] at hprevord
    omega
  have hne1 : ¬ ((prev.id == st.id) = true) := by
    rw [beq_iff_eq]
    exact hneid
  have hne2 : ¬ ((st.id == prev.id) = true) := by
    rw [beq_iff_eq]
    exact fun hc => hneid hc.symm
  have hself : (st.id == st.id) = true := by simp
  have hselfp : (prev.id == prev.id) = true := by simp
  unfold moveUp
  rw [hget]
  dsimp only
  rw [if_neg (by omega)]
  rw [hfind]
  dsimp only
  refine ⟨rfl, ?_, ?_⟩
  · rw [getById_repoUpdate_other subtaskTable (fun _ _ => rfl)
      (fun _ _ _ _ _ _ => rfl) _ prev.id sid2 now
      (fun r => { r with order := st.order }) (fun _ => rfl) st.id]
    rw [getById_repoUpdate_other subtaskTable (fun _ _ => rfl)
      (fun _ _ _ _ _ _ => rfl) db st.id sid1 now
      (fun r => { r with order := prev.order }) (fun _ => rfl) st.id]
    rw [hget]
    dsimp only [Option.map, subtaskTable]
    rw [if_pos hself]
    dsimp only
    rw [if_neg hne2]
  · rw [getById_repoUpdate_other subtaskTable (fun _ _ => rfl)
      (fun _ _ _ _ _ _ => rfl) _ prev.id sid2 now
      (fun r => { r with order := st.order }) (fun _ => rfl) prev.id]
    rw [getById_repoUpdate_other subtaskTable (fun _ _ => rfl)
      (fun _ _ _ _ _ _ => rfl) db st.id sid1 now
      (fun r => { r with order := prev.order }) (fun _ => rfl) prev.id]
    have hgp : getById subtaskTable db prev.id = some prev :=
      find?_eq_self_of_nodup (fun x : Subtask => x.id) db.subtasks hnd prev
        hprevmem
    rw [hgp]
    dsimp only [Option.map, subtaskTable]
    rw [if_neg hne1]
    rw [if_pos hselfp]

/-- C8: sequential createSubtask calls under one task assign strictly
increasing order values matching the creation sequence (each new order is
the task's max existing order + 1); and moveUp on a subtask whose order
exceeds 1 swaps its order with the sibling one order below, so the moved
subtask holds the former predecessor's order and vice versa. -/
theorem subtask_order_assignment_and_moveUp :
    (∀ (db : DB) (tid : String) (inputs : List SubtaskIn),
      ((db.subtasks.map Subtask.id) ++ inputs.map SubtaskIn.newId).Nodup →
      (createSubtasksSeq db tid inputs).2.map (fun o => o.map Subtask.order)
        = (ascOrders (maxOrderFor db tid) inputs.length).map some) ∧
    (∀ (db : DB) (id sid1 sid2 now : String) (st prev : Subtask),
      (db.subtasks.map Subtask.id).Nodup →
      getById subtaskTable db id = some st →
      1 < st.order →
      db.subtasks.find? (fun s =>
        s.taskId == st.taskId && s.order == st.order - 1) = some prev →
      (moveUp db id sid1 sid2 now).2 = true ∧
      (getById subtaskTable (moveUp db id sid1 sid2 now).1 id).map
        Subtask.order = some prev.order ∧
      (getById subtaskTable (moveUp db id sid1 sid2 now).1 prev.id).map
        Subtask.order = some st.order) :=
  ⟨fun db tid inputs hnd => createSubtasksSeq_orders tid db inputs hnd,
   fun db id sid1 sid2 now st prev hnd hget hord hfind =>
     moveUp_swap db id sid1 sid2 now st prev hnd hget hord hfind⟩

/-- C8 witness: two sequential creates under "t1" assign orders 1, 2;
moveUp on the order-2 subtask gives it order 1 and the former order-1
subtask order 2. -/
theorem subtask_order_witness :
    ((createSubtasksSeq emptyDB "t1" c8Inputs).2.map
        (fun o => o.map Subtask.order)
      = (ascOrders (maxOrderFor emptyDB "t1") c8Inputs.length).map some) ∧
    ((moveUp c8TwoDB "s2" "m3" "m4" "2026-01-03T00:00:00.000Z").2 = true) ∧
    ((getById subtaskTable (moveUp c8TwoDB "s2" "m3" "m4"
        "2026-01-03T00:00:00.000Z").1 "s2").map Subtask.order
      = some c8SubA.order) ∧
    ((getById subtaskTable (moveUp c8TwoDB "s2" "m3" "m4"
        "2026-01-03T00:00:00.000Z").1 c8SubA.id).map Subtask.order
      = some c8SubB.order) := by
  have hb := subtask_order_assignment_and_moveUp.2 c8TwoDB "s2" "m3" "m4"
    "2026-01-03T00:00:00.000Z" c8SubB c8SubA (by decide) (by decide)
    (by decide) (by decide)
  exact ⟨subtask_order_assignment_and_moveUp.1 emptyDB "t1" c8Inputs
    (by decide), hb.1, hb.2.1, hb.2.2⟩

/-- The rows an update leaves behind: the id-targeted map image. -/
theorem rows_repoUpdate (t : Table α)
    (hrows : ∀ (db : DB) (l : List α), t.rows (t.setRows db l) = l)
    (hmark : ∀ (db : DB) (sid rid : String) (op : SyncOp)
      (data : Option String) (ts : String),
      t.rows (markForSync t db sid rid op data ts) = t.rows db)
    (db : DB) (id sid now : String) (patch : α → α) :
    t.rows (repoUpdate t db id patch sid now).1
      = (t.rows db).map
          (fun x => if t.getId x == id then t.stampUpdate (patch x) now
            else x) := by
  unfold repoUpdate
  dsimp only
  cases hg : getById t (t.setRows db ((t.rows db).map
      (fun x => if t.getId x == id then t.stampUpdate (patch x) now else x)))
      id with
  | some u =>
    dsimp only
    rw [hmark, hrows]
  | none =>
    dsimp only
    rw [hrows]

/-- Characterization of endSession on an active session: it is exactly
one repository update stamping endTime, duration and notes. -/
theorem endSession_active_state (db : DB) (id : String)
    (notes : Option String) (parse : String → Int) (sid now : String)
    (s : TimeSession) (h : getById timeSessionTable db id = some s)
    (hact : s.endTime = none) :
    endSession db id notes parse sid now
      = ((repoUpdate timeSessionTable db id (fun r => { r with
            endTime := some now,
            duration := some (Int.fdiv (parse now - parse s.startTime) 1000),
            notes := jsOr notes s.notes }) sid now).1,
         .ok (repoUpdate timeSessionTable db id (fun r => { r with
            endTime := some now,
            duration := some (Int.fdiv (parse now - parse s.startTime) 1000),
            notes := jsOr notes s.notes }) sid now).2) := by
  unfold endSession
  rw [h]
  dsimp only
  rw [hact]

/-- C9: while a task has an active time session, startSession for that
task fails with the domain error and writes nothing; once endSession has
completed on that session, a subsequent startSession for the same task
succeeds. -/
theorem startSession_exclusive (db : DB) (tid : String) (s : TimeSession)
    (hfilter : db.timeSessions.filter
      (fun x => x.taskId == tid && x.endTime.isNone) = [s])
    (hnd : (db.timeSessions.map TimeSession.id).Nodup) :
    (∀ (notes : Option String) (nid sid now : String),
      startSession db tid notes nid sid now
        = (db, .error "There is already an active session for this task")) ∧
    (∀ (notesE notes2 : Option String) (parse : String → Int)
       (sidE nowE nid2 sid2 now2 : String),
      (∀ x ∈ db.timeSessions, x.id ≠ nid2) →
      (endSession db s.id notesE parse sidE nowE).2.isOk = true ∧
      (startSession (endSession db s.id notesE parse sidE nowE).1 tid notes2
        nid2 sid2 now2).2.isOk = true) := by
  have hact : getActiveSession db tid = some s :=
    find?_of_filter_singleton _ _ _ hfilter
  have hsfil : s ∈ db.timeSessions.filter
      (fun x => x.taskId == tid && x.endTime.isNone) := by
    rw [hfilter]
    exact List.mem_singleton.mpr rfl
  have hsmem : s ∈ db.timeSessions := List.mem_of_mem_filter hsfil
  have hspred : (s.taskId == tid && s.endTime.isNone) = true :=
    (List.mem_filter.mp hsfil).2
  rw [Bool.and_eq_true] at hspred
  have hsend : s.endTime = none := Option.isNone_iff_eq_none.mp hspred.2
  have hgets : getById timeSessionTable db s.id = some s :=
    find?_eq_self_of_nodup (fun x : TimeSession => x.id) db.timeSessions hnd
      s hsmem
  constructor
  · intro notes nid sid now
    unfold startSession
    rw [hact]
  · intro notesE notes2 parse sidE nowE nid2 sid2 now2 hfresh
    rw [endSession_active_state db s.id notesE parse sidE nowE s hgets hsend]
    have hrows2 : (repoUpdate timeSessionTable db s.id (fun r => { r with
          endTime := some nowE,
          duration := some (Int.fdiv (parse nowE - parse s.startTime) 1000),
          notes := jsOr notesE s.notes }) sidE nowE).1.timeSessions
        = db.timeSessions.map
            (fun x => if timeSessionTable.getId x == s.id
              then timeSessionTable.stampUpdate ({ x with
                endTime := some nowE,
                duration := some (Int.fdiv (parse nowE - parse s.startTime)
                  1000),
                notes := jsOr notesE s.notes }) nowE
              else x) :=
      rows_repoUpdate timeSessionTable (fun _ _ => rfl)
        (fun _ _ _ _ _ _ => rfl) db s.id sidE nowE _
    constructor
    · rfl
    · have hact2 : getActiveSession (repoUpdate timeSessionTable db s.id
          (fun r => { r with
            endTime := some nowE,
            duration := some (Int.fdiv (parse nowE - parse s.startTime) 1000),
            notes := jsOr notesE s.notes }) sidE nowE).1 tid = none := by
        unfold getActiveSession
        rw [hrows2]
        rw [List.find?_eq_none]
        intro x hx
        rw [List.mem_map] at hx
        obtain ⟨x0, hx0, rfl⟩ := hx
        by_cases hid0 : (timeSessionTable.getId x0 == s.id) = true
        · rw [if_pos hid0]
          dsimp only [timeSessionTable]
          simp
        · rw [if_neg hid0]
          intro hp
          have hxf : x0 ∈ db.timeSessions.filter
              (fun x => x.taskId == tid && x.endTime.isNone) :=
            List.mem_filter.mpr ⟨hx0, hp⟩
          rw [hfilter] at hxf
          have hx0s : x0 = s := List.mem_singleton.mp hxf
          exact hid0 (by rw [hx0s]; simp [timeSessionTable])
      unfold startSession
      rw [hact2]
      dsimp only
      have hfresh2 : ∀ x ∈ (repoUpdate timeSessionTable db s.id
          (fun r => { r with
            endTime := some nowE,
            duration := some (Int.fdiv (parse nowE - parse s.startTime) 1000),
            notes := jsOr notesE s.notes }) sidE nowE).1.timeSessions,
          x.id ≠ nid2 := by
        intro x hx
        rw [hrows2] at hx
        rw [List.mem_map] at hx
        obtain ⟨x0, hx0, rfl⟩ := hx
        by_cases hid0 : (timeSessionTable.getId x0 == s.id) = true
        · rw [if_pos hid0]
          exact hfresh x0 hx0
        · rw [if_neg hid0]
          exact hfresh x0 hx0
      rw [repoCreate_found timeSessionTable (fun _ _ => rfl)
        (fun _ _ _ _ _ _ => rfl) _
        { id := nid2, taskId := tid, startTime := now2, endTime := none,
          duration := none, notes := jsOr notes2 none, createdAt := now2,
          updatedAt := now2, syncStatus := .pending, lastSyncAt := none }
        sid2 now2 (fun x hx => hfresh2 x hx)]
      rfl

/-- C9 witness: with the one active session for "t1", startSession fails
and leaves the state unchanged; ending that session and then starting a
new one for "t1" succeeds. -/
theorem startSession_exclusive_witness :
    (startSession c9DB "t1" none "sess2" "m1" "2026-01-02T00:00:00.000Z"
      = (c9DB, .error "There is already an active session for this task")) ∧
    ((endSession c9DB "sess1" none (fun _ => 0) "m2"
        "2026-01-02T00:00:00.000Z").2.isOk = true ∧
      (startSession (endSession c9DB "sess1" none (fun _ => 0) "m2"
          "2026-01-02T00:00:00.000Z").1 "t1" none "sess2" "m3"
          "2026-01-03T00:00:00.000Z").2.isOk = true) := by
  have hb := startSession_exclusive c9DB "t1" c9Active (by decide) (by decide)
  exact ⟨hb.1 none "sess2" "m1" "2026-01-02T00:00:00.000Z",
    hb.2 none none (fun _ => 0) "m2" "2026-01-02T00:00:00.000Z" "sess2" "m3"
      "2026-01-03T00:00:00.000Z" (by decide)⟩

end Taskly
